import Mathlib

/-!
Verification development for the tfsnippet repository: a shallow embedding of
its variable-scope reuse mechanism (`global_reuse` / `instance_reuse` /
`VarScopeObject`) and of its fully-connected `dense` layer.

The repository ships only the test suites for these modules
(`tests/utils/test_reuse.py`, `tests/layers/core/test_dense.py`); the
implementation modules `tfsnippet/utils/reuse.py` and
`tfsnippet/layers/core/dense.py` are not part of the source tree.  The
definitions below are therefore modelled from the specification's description
of the scope machinery (variable scopes qualify parameter names and control
fresh-vs-reuse; name scopes control operation naming with their own
uniquification counter; a reuse decorator re-enters the same variable scope on
every call), with the observable naming behaviour fixed by the assertions of
the shipped test suites.
-/

set_option maxRecDepth 4000

namespace Spec2Proof

/-- Modelled from the spec: joining of scope-name components by the framework
("a namespace mechanism ... that qualifies parameter names"); an empty prefix
denotes the root scope. -/
def joinName (pre name : String) : String :=
  if pre = "" then name else pre ++ "/" ++ name

/-- Helper for `lastComp`: keeps the characters after the last slash. -/
def lastCompAux : List Char → List Char → List Char
  | [], acc => acc
  | ch :: rest, acc => if ch = '/' then lastCompAux rest [] else lastCompAux rest (acc ++ [ch])

/-- Last component of a slash-separated scope name. -/
def lastComp (s : String) : String :=
  ⟨lastCompAux s.data []⟩

/-- Boolean list-prefix test on characters. -/
def listStartsWith : List Char → List Char → Bool
  | [], _ => true
  | _ :: _, [] => false
  | a :: as, b :: bs => a == b && listStartsWith as bs

/-- Boolean string-suffix test (used to state the test suite's
`name.endswith(...)` assertions). -/
def strEndsWith (suf s : String) : Bool :=
  listStartsWith suf.data.reverse s.data.reverse

/-- Whether a scope name contains the separator character. -/
def hasSlash (s : String) : Bool :=
  s.data.contains '/'

/-- Candidate name produced by the uniquification counter: `base_i`. -/
def natSuffix (base : String) (i : Nat) : String :=
  base ++ "_" ++ toString i

/-- Modelled from the spec: a name is considered taken by the framework's
name-scope uniquifier if it was used before, either exactly or as the scope
prefix of a previously created operation. -/
def nameTaken (pool : List String) (cand : String) : Bool :=
  pool.any (fun p => p == cand || listStartsWith (cand ++ "/").data p.data)

/-- Fuel-bounded search for the first free `base_i`. -/
def uniqueAux (pool : List String) (base : String) : Nat → Nat → String
  | 0, i => natSuffix base i
  | fuel + 1, i =>
    if nameTaken pool (natSuffix base i) then uniqueAux pool base fuel (i + 1)
    else natSuffix base i

/-- Modelled from the spec: the name-scope uniquification counter.  The first
use of `base` yields `base`; later uses yield `base_1`, `base_2`, ... -/
def uniqueName (pool : List String) (base : String) : String :=
  if nameTaken pool base then uniqueAux pool base (pool.length + 1) 1 else base

/-- Ambient scoping context: the current variable scope, the current name
scope, and whether variables are being reused. -/
structure Ctx where
  vs : String
  ns : String
  reuse : Bool
  deriving DecidableEq

/-- Modelled from the spec: the per-graph naming state owned by the host
framework.  `pool` is the set of name-scope/operation names in use, `vars` the
created parameter variables (fully-qualified name and shape, most recent
first), `scopes` the variable scopes registered by reuse-decorated functions
(keyed by an identifier of the decorated function or bound method). -/
structure TF where
  pool : List String
  vars : List (String × List Nat)
  scopes : List (Nat × String)
  deriving DecidableEq

/-- A freshly created graph. -/
def emptyGraph : TF := ⟨[], [], []⟩

/-- The root scoping context of a graph. -/
def rootCtx : Ctx := ⟨"", "", false⟩

/-- Lookup of a decorated function's registered scope. -/
def lookupScopeL : List (Nat × String) → Nat → Option String
  | [], _ => none
  | p :: rest, fid => if p.1 = fid then some p.2 else lookupScopeL rest fid

/-- Lookup of a decorated function's registered scope in a graph. -/
def lookupScope (st : TF) (fid : Nat) : Option String :=
  lookupScopeL st.scopes fid

/-- Whether some decorated function already owns the candidate variable-scope
name. -/
def scopeTakenL (l : List (Nat × String)) (cand : String) : Bool :=
  l.any (fun p => p.2 == cand)

/-- Fuel-bounded search for the first variable-scope name `s_i` free under
`base`. -/
def uniqueScopeAux (l : List (Nat × String)) (base s : String) : Nat → Nat → String
  | 0, i => natSuffix s i
  | fuel + 1, i =>
    if scopeTakenL l (joinName base (natSuffix s i)) then uniqueScopeAux l base s fuel (i + 1)
    else natSuffix s i

/-- Modelled from the spec: uniquification of the variable-scope name chosen
by a reuse decorator, relative to the base scope it is created under; two
decorated functions asking for the same scope name obtain distinct scopes. -/
def uniqueScopeName (l : List (Nat × String)) (base s : String) : String :=
  if scopeTakenL l (joinName base s) then uniqueScopeAux l base s (l.length + 1) 1 else s

/-- Record a name as used in the graph's name pool. -/
def markName (st : TF) (u : String) : TF :=
  { st with pool := u :: st.pool }

/-- Modelled from the spec ("Reuse decorator: a wrapper that, given a scope
name, re-enters the same variable scope on every call so that parameters
defined inside are created once and reused thereafter"): entering the scope of
a reuse-decorated function.  On the first call in a graph the variable scope
`base/scope` (uniquified against already registered scopes) is created and
registered; on later calls the registered scope is re-entered with reuse
enabled.  In both cases the operations of the call live in a freshly
uniquified name scope derived from the scope's own name relative to the
ambient name scope, which is the behaviour the test suite pins down. -/
def reuseEnter (st : TF) (fid : Nat) (base scope : String) (c : Ctx) : Ctx × TF :=
  match lookupScope st fid with
  | some vsn =>
    let u := uniqueName st.pool (joinName c.ns (lastComp vsn))
    (⟨vsn, u, true⟩, markName st u)
  | none =>
    let rel := uniqueScopeName st.scopes base scope
    let vsn := joinName base rel
    let u := uniqueName st.pool (joinName c.ns rel)
    (⟨vsn, u, false⟩, { st with pool := u :: st.pool, scopes := (fid, vsn) :: st.scopes })

/-- Modelled from the spec ("controls whether a parameter is created fresh or
reused"): `tf.get_variable`.  Without reuse a fresh variable is created (an
error if it already exists); with reuse the existing variable is returned (an
error if it does not exist).  The returned string is the variable's
fully-qualified name, which identifies the variable object within the graph. -/
def getVariable (st : TF) (c : Ctx) (name : String) (shape : List Nat) :
    Option (String × TF) :=
  let full := joinName c.vs name
  if c.reuse then
    if st.vars.any (fun v => v.1 == full) then some (full, st) else none
  else
    if st.vars.any (fun v => v.1 == full) then none
    else some (full, { st with vars := (full, shape) :: st.vars, pool := full :: st.pool })

/-- Modelled from the spec ("Name scope: a namespace mechanism controlling
operation naming ... with its own uniquification counter"): creating an
operation; returns the `name:0` of its output tensor. -/
def addOp (st : TF) (c : Ctx) (name : String) : String × TF :=
  let u := uniqueName st.pool (joinName c.ns name)
  (u ++ ":0", markName st u)

/-- Modelled from the spec: `tf.variable_scope('name')` with a literal name;
the variable scope nests under the current one, and a uniquified name scope is
opened. -/
def enterVariableScopeStr (st : TF) (c : Ctx) (name : String) : Ctx × TF :=
  let u := uniqueName st.pool (joinName c.ns name)
  (⟨joinName c.vs name, u, c.reuse⟩, markName st u)

/-- Modelled from the spec: `tf.variable_scope(None, default_name=d)`; the
name scope is uniquified and the variable-scope name is derived from the last
component of the uniquified name scope, which is what makes sub-scopes of a
re-entered reuse scope land on the same variable scopes on every call. -/
def enterVariableScopeDefault (st : TF) (c : Ctx) (d : String) : Ctx × TF :=
  let u := uniqueName st.pool (joinName c.ns d)
  (⟨joinName c.vs (lastComp u), u, c.reuse⟩, markName st u)

/-- Modelled from the spec: construction of a `VarScopeObject` named `name`;
the object captures the variable scope `current/name` and its name scope is
marked used.  Returns the object's variable-scope name. -/
def mkVarScopeObject (st : TF) (c : Ctx) (name : String) : String × TF :=
  let u := uniqueName st.pool (joinName c.ns name)
  (joinName c.vs name, markName st u)

/-- A reuse-decorated function whose body is the test suite's
`_make_variable_scope`: it creates/reuses one scalar variable `var`.  Returns
the variable-scope name and the variable's tensor name. -/
def callMakeVar (st : TF) (fid : Nat) (base scope : String) (c : Ctx) :
    Option ((String × String) × TF) :=
  let p := reuseEnter st fid base scope c
  (getVariable p.2 p.1 "var" []).map (fun q => ((p.1.vs, q.1 ++ ":0"), q.2))

/-- A reuse-decorated function whose body is the test suite's
`_make_var_and_op`: one scalar variable `var` and one operation `op`.  Returns
the variable-scope name, the variable's tensor name and the op tensor name. -/
def callMakeVarAndOp (st : TF) (fid : Nat) (base scope : String) (c : Ctx) :
    Option ((String × String × String) × TF) :=
  let p := reuseEnter st fid base scope c
  (getVariable p.2 p.1 "var" []).map (fun q =>
    ((p.1.vs, q.1 ++ ":0", (addOp q.2 p.1 "op").1), (addOp q.2 p.1 "op").2))

/-- One `with tf.variable_scope(None, default_name='vs')` block containing a
`get_variable('var')`, as in the test suite's `_make_variable_scopes`. -/
def subScopeVar (st : TF) (c : Ctx) : Option ((String × String) × TF) :=
  let p := enterVariableScopeDefault st c "vs"
  (getVariable p.2 p.1 "var" []).map (fun q => ((p.1.vs, q.1 ++ ":0"), q.2))

/-- A reuse-decorated function whose body is the test suite's
`_make_variable_scopes`: two sibling default-named sub-scopes, each creating
`var`. -/
def callMakeScopes (st : TF) (fid : Nat) (base scope : String) (c : Ctx) :
    Option (((String × String) × (String × String)) × TF) :=
  let p := reuseEnter st fid base scope c
  match subScopeVar p.2 p.1 with
  | none => none
  | some (r1, st2) => (subScopeVar st2 p.1).map (fun q => ((r1, q.1), q.2))

/-- Python exception values raised by the reuse decorators. -/
inductive PyErr where
  | typeError (msg : String)
  | valueError (msg : String)
  deriving DecidableEq

/-- Modelled from the spec: decoration-time validation performed by
`global_reuse` (absent module `tfsnippet/utils/reuse.py`); a scope name
containing `/` is rejected with a `ValueError` before anything is created. -/
def globalReuseDecorate (scope : String) : Except PyErr Unit :=
  if hasSlash scope then
    Except.error (PyErr.valueError "`global_reuse` does not support \"/\" in scope name")
  else Except.ok ()

/-- Modelled from the spec: decoration-time validation performed by
`instance_reuse` (absent module `tfsnippet/utils/reuse.py`): the decorated
callable must be an unbound function whose first argument is `self`, and the
scope name must not contain `/`. -/
def instanceReuseDecorate (isBound : Bool) (args : List String) (scope : String) :
    Except PyErr Unit :=
  if isBound then
    Except.error (PyErr.typeError "`method` is expected to be unbound instance method")
  else if args.head? = some "self" then
    if hasSlash scope then
      Except.error (PyErr.valueError "`instance_reuse` does not support \"/\" in scope name")
    else Except.ok ()
  else
    Except.error (PyErr.typeError "`method` seems not to be an instance method (whose first argument should be `self`)")

/-- Decorating with `global_reuse` and then calling the wrapped function: the
decoration error, when present, is raised before the graph is touched. -/
def globalReuseTry (st : TF) (fid : Nat) (scope : String) (c : Ctx) :
    Except PyErr ((String × String) × TF) :=
  match globalReuseDecorate scope with
  | Except.error e => Except.error e
  | Except.ok _ =>
    match callMakeVar st fid "" scope c with
    | none => Except.error (PyErr.valueError "variable lookup failed")
    | some r => Except.ok r

/-- The `variable_scope` attribute of an object a decorated method is called
on: either an actual variable scope (with its name) or some other value. -/
inductive VsAttr where
  | vsc (name : String)
  | notVs
  deriving DecidableEq

/-- Modelled from the spec: the call-time check of `instance_reuse` that the
instance's `variable_scope` attribute is a `tf.VariableScope`, followed by the
reuse-decorated call. -/
def instanceReuseCall (attr : VsAttr) (st : TF) (fid : Nat) (scope : String) (c : Ctx) :
    Except PyErr ((String × String) × TF) :=
  match attr with
  | VsAttr.notVs =>
    Except.error (PyErr.typeError "`variable_scope` attribute of the instance is expected to be a `tf.VariableScope`")
  | VsAttr.vsc base =>
    match callMakeVar st fid base scope c with
    | none => Except.error (PyErr.valueError "variable lookup failed")
    | some r => Except.ok r

/-! ### The dense layer

Modelled from the spec: "a fully-connected/dense layer with optional weight
normalization, activation, and a pluggable normalizer", "(a) a few lines of
linear algebra with no novel algorithmic content".  The module
`tfsnippet/layers/core/dense.py` is absent from the source tree; the numeric
semantics below (over the exact field `ℚ`, with an abstract square root for
the l2 normalization) is fixed by `tests/layers/core/test_dense.py`. -/

/-- Matrix product of an `n × d` input with a `d × u` kernel. -/
def matMul {n d u : Nat} (x : Fin n → Fin d → ℚ) (K : Fin d → Fin u → ℚ) :
    Fin n → Fin u → ℚ :=
  fun i j => ∑ k : Fin d, x i k * K k j

/-- Modelled from the spec: l2 normalization of the kernel along axis 0 (each
column divided by the square root of its sum of squares); `sq` is the square
root function of the numeric backend. -/
def l2NormalizeCols {d u : Nat} (sq : ℚ → ℚ) (K : Fin d → Fin u → ℚ) :
    Fin d → Fin u → ℚ :=
  fun i j => K i j / sq (∑ k : Fin d, K k j * K k j)

/-- Modelled from the spec: the value computed by `dense` on a 2-D input.
With `weightNorm` the kernel is l2-normalized along axis 0; the bias is used
when `useBias` is `some true`, or by default exactly when no normalizer is
given; the bias is added before the normalizer, and the activation is applied
last. -/
def dense {n d u : Nat} (x : Fin n → Fin d → ℚ) (K : Fin d → Fin u → ℚ)
    (bias : Fin u → ℚ) (activation normalizer : Option (ℚ → ℚ))
    (weightNorm : Bool) (useBias : Option Bool) (sq : ℚ → ℚ) :
    Fin n → Fin u → ℚ :=
  let kernel := if weightNorm then l2NormalizeCols sq K else K
  let ub := useBias.getD normalizer.isNone
  fun i j =>
    (activation.getD id)
      ((normalizer.getD id) (matMul x kernel i j + (if ub then bias j else 0)))

/-- Flattened row index of entry `(i, j)` of a `b × m` leading shape. -/
def flatIdx {b m : Nat} (i : Fin b) (j : Fin m) : Fin (b * m) :=
  ⟨i.1 * m + j.1, by
    have h1 : i.1 * m + j.1 < (i.1 + 1) * m := by
      rw [Nat.succ_mul]
      omega
    have h2 : (i.1 + 1) * m ≤ b * m := Nat.mul_le_mul_right m i.2
    omega⟩

/-- First (batch) coordinate of a flattened row index. -/
def unflatB {b m : Nat} (r : Fin (b * m)) : Fin b :=
  ⟨r.1 / m, by
    have h := r.2
    have hm : r.1 < m * b := Nat.mul_comm b m ▸ h
    exact Nat.div_lt_of_lt_mul hm⟩

/-- Second coordinate of a flattened row index. -/
def unflatM {b m : Nat} (r : Fin (b * m)) : Fin m :=
  ⟨r.1 % m, by
    have h := r.2
    have hm : 0 < m := by
      rcases Nat.eq_zero_or_pos m with h0 | h1
      · subst h0
        omega
      · exact h1
    exact Nat.mod_lt _ hm⟩

/-- Modelled from the code's behaviour on rank-3 inputs: the leading two axes
are flattened, the 2-D `dense` is applied, and the result is reshaped back. -/
def dense3 {b m d u : Nat} (x : Fin b → Fin m → Fin d → ℚ) (K : Fin d → Fin u → ℚ)
    (bias : Fin u → ℚ) (activation normalizer : Option (ℚ → ℚ))
    (weightNorm : Bool) (useBias : Option Bool) (sq : ℚ → ℚ) :
    Fin b → Fin m → Fin u → ℚ :=
  let flat : Fin (b * m) → Fin d → ℚ := fun r c => x (unflatB r) (unflatM r) c
  fun i j k => dense flat K bias activation normalizer weightNorm useBias sq (flatIdx i j) k

/-- Modelled from the spec: the graph-side effect of `dense` — it opens a
variable scope with default name `dense` and creates exactly the parameter
variables it was not handed: a `kernel` of shape `(d, u)` when no kernel is
given, and a `bias` of shape `(u,)` when no bias is given and the resolved
`use_bias` is true. -/
def denseBuild (st : TF) (c : Ctx) (d u : Nat) (kernelGiven biasGiven normalizerGiven : Bool)
    (useBias : Option Bool) : Option TF :=
  let p := enterVariableScopeDefault st c "dense"
  let ub := useBias.getD (!normalizerGiven)
  let stk : Option TF :=
    if kernelGiven then some p.2
    else
      match getVariable p.2 p.1 "kernel" [d, u] with
      | none => none
      | some (_, st2) => some st2
  match stk with
  | none => none
  | some st2 =>
    if ub && !biasGiven then
      match getVariable st2 p.1 "bias" [u] with
      | none => none
      | some (_, st3) => some st3
    else some st2

/-! ### Concrete call scenarios from the test suite -/

/-- Scenario of `GlobalReuseTestCase.test_create_in_root_scope` shifted to the
structure of claim C3: one decorated call at root scope, then one inside the
enclosing variable scope `parent`; records scope and variable names. -/
def runC3 : Option ((String × String) × (String × String)) :=
  match callMakeVar emptyGraph 1 "" "the_scope" rootCtx with
  | none => none
  | some (r1, st1) =>
    let p := enterVariableScopeStr st1 rootCtx "parent"
    (callMakeVar p.2 1 "" "the_scope" p.1).map (fun q => (r1, q.1))

/-- Scenario of `InstanceReuseTestCase.test_create_in_root_scope`, extended by
a third root-scope call: three calls of the same decorated method in the root
name scope, then one under the variable scope `parent`. -/
def runC4 : Option (List (String × String × String)) :=
  let p0 := mkVarScopeObject emptyGraph rootCtx "o"
  match callMakeVarAndOp p0.2 1 p0.1 "foo" rootCtx with
  | none => none
  | some (r1, st1) =>
    match callMakeVarAndOp st1 1 p0.1 "foo" rootCtx with
    | none => none
    | some (r2, st2) =>
      match callMakeVarAndOp st2 1 p0.1 "foo" rootCtx with
      | none => none
      | some (r3, st3) =>
        let pp := enterVariableScopeStr st3 rootCtx "parent"
        (callMakeVarAndOp pp.2 1 p0.1 "foo" pp.1).map (fun q => [r1, r2, r3, q.1])

/-- Scenario of `GlobalReuseTestCase.test_uniquified_scope_name`: two distinct
decorated functions requesting the same scope name `the_scope`. -/
def runC6Global : Option ((String × String) × (String × String)) :=
  match callMakeVar emptyGraph 1 "" "the_scope" rootCtx with
  | none => none
  | some (r1, st1) => (callMakeVar st1 2 "" "the_scope" rootCtx).map (fun q => (r1, q.1))

/-- Scenario of `InstanceReuseTestCase.test_uniquified_scope_name`: two
methods of one `VarScopeObject` instance `o`, both requesting scope `foo`. -/
def runC6InstSame : Option ((String × String) × (String × String)) :=
  let p0 := mkVarScopeObject emptyGraph rootCtx "o"
  match callMakeVar p0.2 1 p0.1 "foo" rootCtx with
  | none => none
  | some (r1, st1) => (callMakeVar st1 2 p0.1 "foo" rootCtx).map (fun q => (r1, q.1))

/-- Scenario of `InstanceReuseTestCase.test_two_instances`: the same decorated
method on two instances named `o1` and `o2`. -/
def runC6TwoInst : Option ((String × String) × (String × String)) :=
  let p1 := mkVarScopeObject emptyGraph rootCtx "o1"
  match callMakeVar p1.2 1 p1.1 "foo" rootCtx with
  | none => none
  | some (r1, st1) =>
    let p2 := mkVarScopeObject st1 rootCtx "o2"
    (callMakeVar p2.2 2 p2.1 "foo" rootCtx).map (fun q => (r1, q.1))

/-- Scenario of `GlobalReuseTestCase.test_create_variable_scopes_with_default_name`:
two calls of a decorated function whose body opens two default-named
sub-scopes; records the sub-scope and variable names of both calls and the
graph's variable list after each call. -/
def runC7 :
    Option ((((String × String) × (String × String)) × List (String × List Nat)) ×
      (((String × String) × (String × String)) × List (String × List Nat))) :=
  match callMakeScopes emptyGraph 1 "" "the_scope" rootCtx with
  | none => none
  | some (r1, st1) =>
    (callMakeScopes st1 1 "" "the_scope" rootCtx).map (fun q => ((r1, st1.vars), (q.1, q.2.vars)))

/-- The variable-scope name allocated by the first call of a decorated
function. -/
def freshScopeName (st : TF) (base scope : String) : String :=
  joinName base (uniqueScopeName st.scopes base scope)

/-! ### Characterization lemmas for `callMakeVar` -/

theorem callMakeVar_reuse_eq (st : TF) (fid : Nat) (base scope : String) (c : Ctx)
    (vsn : String) (hl : lookupScope st fid = some vsn)
    (hm : st.vars.any (fun v => v.1 == joinName vsn "var") = true) :
    callMakeVar st fid base scope c =
      some ((vsn, joinName vsn "var" ++ ":0"),
        markName st (uniqueName st.pool (joinName c.ns (lastComp vsn)))) := by
  simp [callMakeVar, reuseEnter, hl, getVariable, markName, hm]

theorem callMakeVar_reuse_none (st : TF) (fid : Nat) (base scope : String) (c : Ctx)
    (vsn : String) (hl : lookupScope st fid = some vsn)
    (hm : st.vars.any (fun v => v.1 == joinName vsn "var") = false) :
    callMakeVar st fid base scope c = none := by
  simp [callMakeVar, reuseEnter, hl, getVariable, markName, hm]

theorem callMakeVar_fresh_eq (st : TF) (fid : Nat) (base scope : String) (c : Ctx)
    (hl : lookupScope st fid = none)
    (hm : st.vars.any (fun v => v.1 == joinName (freshScopeName st base scope) "var") = false) :
    callMakeVar st fid base scope c =
      some ((freshScopeName st base scope,
             joinName (freshScopeName st base scope) "var" ++ ":0"),
        ⟨joinName (freshScopeName st base scope) "var" ::
           uniqueName st.pool (joinName c.ns (uniqueScopeName st.scopes base scope)) :: st.pool,
         (joinName (freshScopeName st base scope) "var", []) :: st.vars,
         (fid, freshScopeName st base scope) :: st.scopes⟩) := by
  simp only [freshScopeName] at hm
  simp [callMakeVar, reuseEnter, hl, getVariable, freshScopeName, hm]

theorem callMakeVar_fresh_none (st : TF) (fid : Nat) (base scope : String) (c : Ctx)
    (hl : lookupScope st fid = none)
    (hm : st.vars.any (fun v => v.1 == joinName (freshScopeName st base scope) "var") = true) :
    callMakeVar st fid base scope c = none := by
  simp only [freshScopeName] at hm
  simp [callMakeVar, reuseEnter, hl, getVariable, freshScopeName, hm]

/-! ### Theorems for the claims -/

/-- C1: within a single graph, every call of a reuse-decorated function after
the first re-enters the registered variable scope and returns the very same
parameter variable (same fully-qualified name, and no new variable object is
created: the graph's variable list is unchanged), so parameters are created
exactly once per graph; calling the same decorated function on a fresh default
graph creates a fresh variable in that graph. -/
theorem c1_reuse_per_graph (st : TF) (fid : Nat) (base scope : String) (c c' : Ctx)
    (vsn varn : String) (st1 : TF)
    (h1 : callMakeVar st fid base scope c = some ((vsn, varn), st1)) :
    (∃ st2 : TF, callMakeVar st1 fid base scope c' = some ((vsn, varn), st2) ∧
      st2.vars = st1.vars ∧ st2.scopes = st1.scopes) ∧
    (∃ r : String × String, ∃ stg : TF,
      callMakeVar emptyGraph fid base scope rootCtx = some (r, stg) ∧
      stg.vars.length = 1) := by
  have key : lookupScope st1 fid = some vsn ∧ varn = joinName vsn "var" ++ ":0" ∧
      st1.vars.any (fun v => v.1 == joinName vsn "var") = true := by
    cases hl : lookupScope st fid with
    | some v0 =>
      cases hb : st.vars.any (fun v => v.1 == joinName v0 "var") with
      | false =>
        rw [callMakeVar_reuse_none st fid base scope c v0 hl hb] at h1
        exact absurd h1 (by simp)
      | true =>
        rw [callMakeVar_reuse_eq st fid base scope c v0 hl hb] at h1
        simp only [Option.some.injEq, Prod.mk.injEq] at h1
        obtain ⟨⟨hv0, hvn⟩, hst⟩ := h1
        subst hv0
        refine ⟨?_, hvn.symm, ?_⟩
        · rw [← hst]
          simpa [lookupScope, markName] using hl
        · rw [← hst]
          simpa [markName] using hb
    | none =>
      cases hb : st.vars.any (fun v => v.1 == joinName (freshScopeName st base scope) "var") with
      | true =>
        rw [callMakeVar_fresh_none st fid base scope c hl hb] at h1
        exact absurd h1 (by simp)
      | false =>
        rw [callMakeVar_fresh_eq st fid base scope c hl hb] at h1
        simp only [Option.some.injEq, Prod.mk.injEq] at h1
        obtain ⟨⟨hv0, hvn⟩, hst⟩ := h1
        subst hv0
        refine ⟨?_, hvn.symm, ?_⟩
        · rw [← hst]
          simp [lookupScope, lookupScopeL]
        · rw [← hst]
          simp
  obtain ⟨hl1, hvn, hm1⟩ := key
  constructor
  · refine ⟨markName st1 (uniqueName st1.pool (joinName c'.ns (lastComp vsn))), ?_, ?_, ?_⟩
    · rw [callMakeVar_reuse_eq st1 fid base scope c' vsn hl1 hm1, hvn]
    · simp [markName]
    · simp [markName]
  · exact ⟨_, _, callMakeVar_fresh_eq emptyGraph fid base scope rootCtx rfl rfl, rfl⟩

/-- Witness for C1: the hypothesis is discharged at the first call of a
decorated function on a fresh graph, and the conclusion holds there. -/
theorem c1_reuse_per_graph_witness :
    callMakeVar emptyGraph 0 "" "the_scope" rootCtx =
      some (("the_scope", "the_scope/var:0"),
        ⟨["the_scope/var", "the_scope"], [("the_scope/var", [])], [(0, "the_scope")]⟩) ∧
    ((∃ st2 : TF,
        callMakeVar ⟨["the_scope/var", "the_scope"], [("the_scope/var", [])], [(0, "the_scope")]⟩
          0 "" "the_scope" rootCtx = some (("the_scope", "the_scope/var:0"), st2) ∧
        st2.vars = [("the_scope/var", [])] ∧ st2.scopes = [(0, "the_scope")]) ∧
      (∃ r : String × String, ∃ stg : TF,
        callMakeVar emptyGraph 0 "" "the_scope" rootCtx = some (r, stg) ∧
        stg.vars.length = 1)) :=
  ⟨rfl,
    c1_reuse_per_graph emptyGraph 0 "" "the_scope" rootCtx rootCtx
      "the_scope" "the_scope/var:0"
      ⟨["the_scope/var", "the_scope"], [("the_scope/var", [])], [(0, "the_scope")]⟩ rfl⟩

/-- C3: the variable scope a reuse-decorated function re-enters is fixed when
the function is set up and does not depend on the scope active at the call
site: for any two ambient contexts the call returns the same variable-scope
name and the same variable name; concretely, one call at root scope and one
inside the variable scope `parent` both yield scope `the_scope` and variable
`the_scope/var:0` (never `parent/the_scope/var:0`). -/
theorem c3_call_site_independence :
    (∀ (st : TF) (fid : Nat) (base scope : String) (c c' : Ctx),
      (callMakeVar st fid base scope c).map Prod.fst =
        (callMakeVar st fid base scope c').map Prod.fst) ∧
    runC3 = some (("the_scope", "the_scope/var:0"), ("the_scope", "the_scope/var:0")) := by
  constructor
  · intro st fid base scope c c'
    cases hl : lookupScope st fid with
    | some v0 =>
      cases hb : st.vars.any (fun v => v.1 == joinName v0 "var") with
      | false =>
        rw [callMakeVar_reuse_none st fid base scope c v0 hl hb,
          callMakeVar_reuse_none st fid base scope c' v0 hl hb]
      | true =>
        rw [callMakeVar_reuse_eq st fid base scope c v0 hl hb,
          callMakeVar_reuse_eq st fid base scope c' v0 hl hb]
        rfl
    | none =>
      cases hb : st.vars.any
          (fun v => v.1 == joinName (freshScopeName st base scope) "var") with
      | true =>
        rw [callMakeVar_fresh_none st fid base scope c hl hb,
          callMakeVar_fresh_none st fid base scope c' hl hb]
      | false =>
        rw [callMakeVar_fresh_eq st fid base scope c hl hb,
          callMakeVar_fresh_eq st fid base scope c' hl hb]
        rfl
  · rfl

/-- C4: name scoping is uniquified independently of variable scoping — on each
successive call of a reuse-decorated method in the same ambient name scope the
operations land in a freshly uniquified name scope (`foo/op:0`, `foo_1/op:0`,
`foo_2/op:0`, and `parent/foo/op:0` under the ambient name scope `parent`),
while the variable-scope and variable names stay constant across all calls. -/
theorem c4_name_scope_uniquified :
    runC4 = some
      [("o/foo", "o/foo/var:0", "foo/op:0"),
       ("o/foo", "o/foo/var:0", "foo_1/op:0"),
       ("o/foo", "o/foo/var:0", "foo_2/op:0"),
       ("o/foo", "o/foo/var:0", "parent/foo/op:0")] := by
  rfl

/-- C6: scope-name uniquification across distinct decorated functions — two
functions decorated with the same requested scope name obtain `the_scope` and
`the_scope_1` (and methods of one instance `o/foo` and `o/foo_1`), so their
parameter variables are distinct; two instances named `o1` and `o2` get the
disjoint scopes `o1/foo` and `o2/foo`. -/
theorem c6_scope_name_uniquified_across_functions :
    runC6Global = some (("the_scope", "the_scope/var:0"), ("the_scope_1", "the_scope_1/var:0")) ∧
    runC6InstSame = some (("o/foo", "o/foo/var:0"), ("o/foo_1", "o/foo_1/var:0")) ∧
    runC6TwoInst = some (("o1/foo", "o1/foo/var:0"), ("o2/foo", "o2/foo/var:0")) ∧
    ("the_scope/var:0" ≠ "the_scope_1/var:0") ∧ ("o/foo/var:0" ≠ "o/foo_1/var:0") := by
  refine ⟨rfl, rfl, rfl, ?_, ?_⟩ <;> decide

/-- C7: variable scopes opened with a default name inside a reuse-decorated
function are stable across calls — the first call creates `the_scope/vs` and
`the_scope/vs_1`, and the second call re-enters exactly those sub-scopes and
reuses their variables (the graph's variable list is unchanged) instead of
creating `vs_2`, `vs_3`. -/
theorem c7_default_name_subscopes_stable :
    runC7 = some
      (((("the_scope/vs", "the_scope/vs/var:0"), ("the_scope/vs_1", "the_scope/vs_1/var:0")),
        [("the_scope/vs_1/var", []), ("the_scope/vs/var", [])]),
       ((("the_scope/vs", "the_scope/vs/var:0"), ("the_scope/vs_1", "the_scope/vs_1/var:0")),
        [("the_scope/vs_1/var", []), ("the_scope/vs/var", [])])) := by
  rfl

theorem unflatB_flatIdx {b m : Nat} (i : Fin b) (j : Fin m) :
    unflatB (flatIdx i j) = i := by
  apply Fin.ext
  show (i.1 * m + j.1) / m = i.1
  have hm : 0 < m := Nat.lt_of_le_of_lt (Nat.zero_le j.1) j.2
  rw [Nat.add_comm, Nat.add_mul_div_right j.1 i.1 hm, Nat.div_eq_of_lt j.2, Nat.zero_add]

theorem unflatM_flatIdx {b m : Nat} (i : Fin b) (j : Fin m) :
    unflatM (flatIdx i j) = j := by
  apply Fin.ext
  show (i.1 * m + j.1) % m = j.1
  rw [Nat.add_comm, Nat.add_mul_mod_self_right]
  exact Nat.mod_eq_of_lt j.2

/-- C2: with a given kernel and bias and default options, `dense` computes the
matrix product plus the bias broadcast over rows on 2-D input, and on rank-3
input (arbitrary, possibly unknown, leading dimensions `bt` and `m`) applies
the same linear map over the last axis, giving output shape
`(bt, m, units)`. -/
theorem c2_dense_linear {n d u bt m : Nat}
    (x : Fin n → Fin d → ℚ) (x3 : Fin bt → Fin m → Fin d → ℚ)
    (K : Fin d → Fin u → ℚ) (bias : Fin u → ℚ) (sq : ℚ → ℚ)
    (i : Fin n) (j : Fin u) (p : Fin bt) (q : Fin m) :
    dense x K bias none none false none sq i j = matMul x K i j + bias j ∧
    dense3 x3 K bias none none false none sq p q j = matMul (x3 p) K q j + bias j := by
  constructor
  · rfl
  · simp [dense3, dense, matMul, unflatB_flatIdx, unflatM_flatIdx]

/-- C5: with `normalizer_fn`, `activation_fn` and `weight_norm=True` given,
`dense` computes `activation_fn(normalizer_fn(x · K'))` with `K'` the kernel
l2-normalized along axis 0; the bias is omitted by default even though a bias
is passed, and with an explicit `use_bias=True` it is added inside the
normalizer: `activation_fn(normalizer_fn(x · K' + b))`. -/
theorem c5_dense_weight_norm_normalizer {n d u : Nat}
    (x : Fin n → Fin d → ℚ) (K : Fin d → Fin u → ℚ) (bias : Fin u → ℚ)
    (act nrm sq : ℚ → ℚ) (i : Fin n) (j : Fin u) :
    dense x K bias (some act) (some nrm) true none sq i j =
      act (nrm (matMul x (l2NormalizeCols sq K) i j)) ∧
    dense x K bias (some act) (some nrm) true (some true) sq i j =
      act (nrm (matMul x (l2NormalizeCols sq K) i j + bias j)) := by
  constructor
  · simp [dense]
  · rfl

/-- C8: a scope name containing `/` is rejected at decoration time with a
`ValueError` whose message matches `does not support "/" in scope name` (for
`global_reuse` exactly the message of the claim), and the wrapped call
therefore returns that error without creating any scope or variable. -/
theorem c8_slash_in_scope_name :
    (∀ (st : TF) (fid : Nat) (c : Ctx),
      globalReuseTry st fid "nested/scope" c =
        Except.error (PyErr.valueError "`global_reuse` does not support \"/\" in scope name")) ∧
    globalReuseDecorate "nested/scope" =
      Except.error (PyErr.valueError "`global_reuse` does not support \"/\" in scope name") ∧
    instanceReuseDecorate false ["self"] "nested/scope" =
      Except.error (PyErr.valueError "`instance_reuse` does not support \"/\" in scope name") ∧
    strEndsWith "does not support \"/\" in scope name"
      "`global_reuse` does not support \"/\" in scope name" = true ∧
    strEndsWith "does not support \"/\" in scope name"
      "`instance_reuse` does not support \"/\" in scope name" = true :=
  ⟨fun _ _ _ => rfl, rfl, rfl, rfl, rfl⟩

/-- C9: `instance_reuse` raises `TypeError` when the instance's
`variable_scope` attribute is not a `tf.VariableScope`, when the decorated
function takes no arguments or its first argument is not named `self`, and
when it is applied to an already-bound method. -/
theorem c9_instance_reuse_type_errors :
    (∀ (st : TF) (fid : Nat) (scope : String) (c : Ctx),
      instanceReuseCall VsAttr.notVs st fid scope c =
        Except.error (PyErr.typeError "`variable_scope` attribute of the instance is expected to be a `tf.VariableScope`")) ∧
    instanceReuseDecorate false [] "foo" =
      Except.error (PyErr.typeError "`method` seems not to be an instance method (whose first argument should be `self`)") ∧
    instanceReuseDecorate false ["a"] "foo" =
      Except.error (PyErr.typeError "`method` seems not to be an instance method (whose first argument should be `self`)") ∧
    instanceReuseDecorate true ["self"] "foo" =
      Except.error (PyErr.typeError "`method` is expected to be unbound instance method") :=
  ⟨fun _ _ _ _ => rfl, rfl, rfl, rfl⟩

/-- C10: when kernel and bias are not supplied, `dense` creates exactly the
parameters it needs: with defaults a kernel of shape `(d, units)` whose tensor
name ends with `/kernel:0` and a bias of shape `(units,)` whose tensor name
ends with `/bias:0`, and nothing else; with `use_bias=False` no bias variable
is created and no bias is added to the output. -/
theorem c10_dense_variable_creation {dIn u n : Nat}
    (x : Fin n → Fin dIn → ℚ) (K : Fin dIn → Fin u → ℚ) (bias : Fin u → ℚ)
    (sq : ℚ → ℚ) (i : Fin n) (j : Fin u) :
    (denseBuild emptyGraph rootCtx dIn u false false false none).map TF.vars =
      some [("dense/bias", [u]), ("dense/kernel", [dIn, u])] ∧
    (denseBuild emptyGraph rootCtx dIn u false false false (some false)).map TF.vars =
      some [("dense/kernel", [dIn, u])] ∧
    strEndsWith "/kernel:0" ("dense/kernel" ++ ":0") = true ∧
    strEndsWith "/bias:0" ("dense/bias" ++ ":0") = true ∧
    dense x K bias none none false (some false) sq i j = matMul x K i j := by
  refine ⟨rfl, rfl, rfl, rfl, ?_⟩
  simp [dense]

end Spec2Proof
